import Mathlib

/-!
Verification of the `ShallowCopy` trait of the left-right repository
(`src/shallow_copy.rs`).

The source defines one trait,

  pub trait ShallowCopy { unsafe fn shallow_copy(&mut self) -> Self; }

and implementations for `Arc<T>`, `Rc<T>`, `Box<T>`, `String`, `Vec<T>`,
`&'a T`, the fixed-size `Copy` scalars, and tuples of arity 1 through 12.

We embed the runtime representation of every supported carrier type as an
inductive `Carrier`: a pointer for `Arc`/`Rc`/`Box`, a
(pointer, length, capacity) triple for `String`/`Vec`, an address for a
borrowed reference, a bit pattern for the scalars, and a list (in declared
order) for the tuples.  Reference counts live in a `Heap` mapping the
address of a reference-counted allocation to its strong count; byte-level
content of the pointed-to storage lives in a `Mem` mapping addresses to
values.  The trait method takes `&mut self`, so its embedding is an
explicit state function: it receives the heap and the receiver and returns
the heap the body leaves, the receiver the body leaves, and the returned
value.  Each match arm below is the direct translation of one `impl` block
of the source file.
-/

namespace LeftRight

/-- Strong reference counts, indexed by the address of the shared
allocation (`ArcInner`/`RcBox`). -/
abbrev Heap := Nat → Nat

/-- Content of addressable storage: the value stored at each address. -/
abbrev Mem := Nat → Nat

/-- Runtime representation of every carrier type the source implements
`ShallowCopy` for. -/
inductive Carrier where
  | arc (ptr : Nat)
  | rc (ptr : Nat)
  | box (ptr : Nat)
  | str (ptr len cap : Nat)
  | vec (ptr len cap : Nat)
  | ref (addr : Nat)
  | scalar (val : Nat)
  | tup (elems : List Carrier)
deriving Repr

/-- Rust `Arc::from_raw(ptr)`: rebuild a strong handle from a raw
pointer.  Per the standard library this performs no reference-count
mutation, so the heap of counts passes through untouched. -/
def Arc.from_raw (h : Heap) (p : Nat) : Heap × Nat := (h, p)

/-- Rust `Rc::from_raw(ptr)`: the non-atomic flavour; likewise touches no
count. -/
def Rc.from_raw (h : Heap) (p : Nat) : Heap × Nat := (h, p)

/-- Rust `Box::from_raw(ptr)`: rebuild an owning handle from a raw
pointer. -/
def Box.from_raw (p : Nat) : Nat := p

/-- Rust `String::from_raw_parts(buf, len, cap)` and
`Vec::from_raw_parts(ptr, len, cap)`: rebuild a buffer handle from the
raw triple, copying no byte. -/
def from_raw_parts (isStr : Bool) (p l c : Nat) : Carrier :=
  if isStr then .str p l c else .vec p l c

mutual

/-- The embedded `shallow_copy` method.  Input: the count heap and the
receiver (`&mut self`).  Output: the heap after the body, the receiver
after the body, and the returned value.  One arm per `impl` block of
`src/shallow_copy.rs`; the tuple arm calls the method on each component
in declared order, threading the state left to right. -/
def shallow_copy : Heap → Carrier → Heap × Carrier × Carrier
  | h, .arc p =>
      -- Arc::from_raw(&**self as *const _)
      let r := Arc.from_raw h p
      (r.1, .arc p, .arc r.2)
  | h, .rc p =>
      -- Rc::from_raw(&**self as *const _)
      let r := Rc.from_raw h p
      (r.1, .rc p, .rc r.2)
  | h, .box p =>
      -- Box::from_raw(&mut **self as *mut _)
      (h, .box p, .box (Box.from_raw p))
  | h, .str p l c =>
      -- let buf = self.as_bytes_mut().as_mut_ptr();
      -- let len = self.len(); let cap = self.capacity();
      -- String::from_raw_parts(buf, len, cap)
      (h, .str p l c, from_raw_parts true p l c)
  | h, .vec p l c =>
      -- let ptr = self.as_mut_ptr();
      -- let len = self.len(); let cap = self.capacity();
      -- Vec::from_raw_parts(ptr, len, cap)
      (h, .vec p l c, from_raw_parts false p l c)
  | h, .ref a =>
      -- &*self
      (h, .ref a, .ref a)
  | h, .scalar v =>
      -- *self
      (h, .scalar v, .scalar v)
  | h, .tup es =>
      -- (self.0.shallow_copy(), self.1.shallow_copy(), ...)
      let r := shallow_copy_list h es
      (r.1, .tup r.2.1, .tup r.2.2)

/-- State-threaded element-wise copy of a tuple's components, head
(index 0) first. -/
def shallow_copy_list : Heap → List Carrier → Heap × List Carrier × List Carrier
  | h, [] => (h, [], [])
  | h, e :: es =>
      let r := shallow_copy h e
      let rs := shallow_copy_list r.1 es
      (rs.1, r.2.1 :: rs.2.1, r.2.2 :: rs.2.2)

end

/-- Reading an element at offset `i` through a buffer handle whose backing
pointer is `ptr` (`self[i]`). -/
def bufRead (m : Mem) (ptr i : Nat) : Nat := m (ptr + i)

/-- Writing `x` at offset `i` through a buffer handle whose backing
pointer is `ptr` (`self[i] = x`). -/
def bufWrite (m : Mem) (ptr i x : Nat) : Mem :=
  fun a => if a = ptr + i then x else m a

/-- A store of scalar variables (stack slots), for stating independence of
scalar copies: a slot index maps to the scalar value it holds. -/
abbrev Store := Nat → Nat

/-- Assigning a scalar value to a variable slot. -/
def storeWrite (s : Store) (slot x : Nat) : Store :=
  fun a => if a = slot then x else s a

/-- The observable content read through a handle: the pointee for pointer
shapes, the buffer elements for buffer shapes, the value itself for
scalars, and the concatenation over components for tuples. -/
def observe (m : Mem) : Carrier → List Nat
  | .arc p => [m p]
  | .rc p => [m p]
  | .box p => [m p]
  | .str p l _ => (List.range l).map (fun i => m (p + i))
  | .vec p l _ => (List.range l).map (fun i => m (p + i))
  | .ref a => [m a]
  | .scalar v => [v]
  | .tup es => (es.attach.map (fun e => observe m e.1)).flatten
decreasing_by
  simp_wf
  have h := List.sizeOf_lt_of_mem e.2
  omega

/-- Modelled from the spec: which carrier shapes carry a destruction
obligation (a `Drop` that releases storage).  The source file has no drop
code of its own; per the spec's table, owning, reference-counted and
buffer shapes do, borrowed references and scalars do not, and a composite
inherits the disjunction of its components. -/
def needsDrop : Carrier → Bool
  | .arc _ => true
  | .rc _ => true
  | .box _ => true
  | .str _ _ _ => true
  | .vec _ _ _ => true
  | .ref _ => false
  | .scalar _ => false
  | .tup es => es.attach.map (fun e => needsDrop e.1) |>.any id
decreasing_by
  simp_wf
  have h := List.sizeOf_lt_of_mem e.2
  omega

/-- Backing pointer of a buffer handle (0 for non-buffer shapes). -/
def bufPtr : Carrier → Nat
  | .str p _ _ => p
  | .vec p _ _ => p
  | _ => 0

/-- Length of a buffer handle (0 for non-buffer shapes). -/
def bufLen : Carrier → Nat
  | .str _ l _ => l
  | .vec _ l _ => l
  | _ => 0

/-- Capacity of a buffer handle (0 for non-buffer shapes). -/
def bufCap : Carrier → Nat
  | .str _ _ c => c
  | .vec _ _ c => c
  | _ => 0

/-- Value held by a scalar carrier (0 for non-scalar shapes). -/
def scalarVal : Carrier → Nat
  | .scalar v => v
  | _ => 0

mutual

/-- Central helper: on every supported carrier, the embedded method
returns the count heap unchanged, the receiver unchanged, and a value
whose representation equals the receiver's. -/
theorem shallow_copy_eq (h : Heap) (c : Carrier) :
    shallow_copy h c = (h, c, c) := by
  cases c with
  | tup es =>
      simp [shallow_copy, shallow_copy_list_eq h es]
  | arc p => simp [shallow_copy, Arc.from_raw]
  | rc p => simp [shallow_copy, Rc.from_raw]
  | box p => simp [shallow_copy, Box.from_raw]
  | str p l cp => simp [shallow_copy, from_raw_parts]
  | vec p l cp => simp [shallow_copy, from_raw_parts]
  | ref a => simp [shallow_copy]
  | scalar v => simp [shallow_copy]

/-- Companion of `shallow_copy_eq` for the component list of a tuple. -/
theorem shallow_copy_list_eq (h : Heap) (es : List Carrier) :
    shallow_copy_list h es = (h, es, es) := by
  cases es with
  | nil => simp [shallow_copy_list]
  | cons e es =>
      simp [shallow_copy_list, shallow_copy_eq h e, shallow_copy_list_eq h es]

end

/-- C1: for every supported carrier type, the value returned by
`shallow_copy` has exactly the same runtime representation as the
original carrier at the moment of the call, so reads through either the
original or the returned handle observe the same underlying content. -/
theorem shallow_copy_same_representation (h : Heap) (c : Carrier) (m : Mem) :
    (shallow_copy h c).2.2 = c ∧
    observe m (shallow_copy h c).2.2 = observe m c := by
  rw [shallow_copy_eq]
  exact ⟨rfl, rfl⟩

/-- C2: for every reference-counted carrier (`Arc` and `Rc`),
`shallow_copy` returns a second strong handle to the same allocation
without incrementing the shared strong count: with both handles alive,
the count observed after the call equals the count observed before it,
at every allocation address. -/
theorem shallow_copy_count_unchanged (h : Heap) (p : Nat) :
    (shallow_copy h (.arc p)).2.2 = .arc p ∧
    (shallow_copy h (.arc p)).1 = h ∧
    (shallow_copy h (.rc p)).2.2 = .rc p ∧
    (shallow_copy h (.rc p)).1 = h := by
  rw [shallow_copy_eq, shallow_copy_eq]
  exact ⟨rfl, rfl, rfl, rfl⟩

/-- C3: for every `String` and every `Vec`, `shallow_copy` returns a
buffer whose backing pointer, length and capacity are exactly those of
the original, so writing an element through the copy's pointer is
observed when reading through the original's pointer. -/
theorem shallow_copy_buffer_aliases (h : Heap) (p l cp : Nat) (m : Mem)
    (i x : Nat) (hi : i < l) :
    bufPtr (shallow_copy h (.str p l cp)).2.2 = p ∧
    bufLen (shallow_copy h (.str p l cp)).2.2 = l ∧
    bufCap (shallow_copy h (.str p l cp)).2.2 = cp ∧
    bufPtr (shallow_copy h (.vec p l cp)).2.2 = p ∧
    bufLen (shallow_copy h (.vec p l cp)).2.2 = l ∧
    bufCap (shallow_copy h (.vec p l cp)).2.2 = cp ∧
    bufRead (bufWrite m (bufPtr (shallow_copy h (.str p l cp)).2.2) i x) p i = x ∧
    bufRead (bufWrite m (bufPtr (shallow_copy h (.vec p l cp)).2.2) i x) p i = x := by
  rw [shallow_copy_eq, shallow_copy_eq]
  refine ⟨rfl, rfl, rfl, rfl, rfl, rfl, ?_, ?_⟩ <;>
    simp [bufPtr, bufRead, bufWrite]

/-- Witness for C3 at a concrete buffer and index. -/
theorem shallow_copy_buffer_aliases_witness :
    0 < 3 ∧
    (bufPtr (shallow_copy (fun _ => 1) (.str 10 3 4)).2.2 = 10 ∧
     bufLen (shallow_copy (fun _ => 1) (.str 10 3 4)).2.2 = 3 ∧
     bufCap (shallow_copy (fun _ => 1) (.str 10 3 4)).2.2 = 4 ∧
     bufPtr (shallow_copy (fun _ => 1) (.vec 10 3 4)).2.2 = 10 ∧
     bufLen (shallow_copy (fun _ => 1) (.vec 10 3 4)).2.2 = 3 ∧
     bufCap (shallow_copy (fun _ => 1) (.vec 10 3 4)).2.2 = 4 ∧
     bufRead (bufWrite (fun _ => 0)
       (bufPtr (shallow_copy (fun _ => 1) (.str 10 3 4)).2.2) 0 99) 10 0 = 99 ∧
     bufRead (bufWrite (fun _ => 0)
       (bufPtr (shallow_copy (fun _ => 1) (.vec 10 3 4)).2.2) 0 99) 10 0 = 99) :=
  ⟨by decide,
   shallow_copy_buffer_aliases (fun _ => 1) 10 3 4 (fun _ => 0) 0 99 (by decide)⟩

/-- C4: for every tuple of arity 1 through 12, `shallow_copy` on the
tuple equals the tuple of `shallow_copy` applied to each component in
declared order; a tuple mixing a scalar component and a
reference-counted component satisfies the scalar value-copy property in
the scalar slot and the count-unchanged aliasing property in the
reference-counted slot simultaneously. -/
theorem shallow_copy_tuple_elementwise (h : Heap) (es : List Carrier)
    (v p : Nat) (h1 : 1 ≤ es.length) (h12 : es.length ≤ 12) :
    (shallow_copy h (.tup es)).2.2 =
      .tup (es.map (fun e => (shallow_copy h e).2.2)) ∧
    (shallow_copy h (.tup [.scalar v, .arc p])).2.2 =
      .tup [.scalar v, .arc p] ∧
    (shallow_copy h (.tup [.scalar v, .arc p])).1 = h := by
  have hmap : ∀ l : List Carrier, l.map (fun e => (shallow_copy h e).2.2) = l := by
    intro l
    induction l with
    | nil => rfl
    | cons e es ih => simp [ih, shallow_copy_eq]
  refine ⟨?_, ?_, ?_⟩
  · rw [shallow_copy_eq, hmap]
  · rw [shallow_copy_eq]
  · rw [shallow_copy_eq]

/-- Witness for C4 at a concrete two-element tuple. -/
theorem shallow_copy_tuple_elementwise_witness :
    1 ≤ ([Carrier.scalar 7, Carrier.arc 3] : List Carrier).length ∧
    ([Carrier.scalar 7, Carrier.arc 3] : List Carrier).length ≤ 12 ∧
    ((shallow_copy (fun _ => 2) (.tup [.scalar 7, .arc 3])).2.2 =
       .tup ([Carrier.scalar 7, Carrier.arc 3].map
         (fun e => (shallow_copy (fun _ => 2) e).2.2)) ∧
     (shallow_copy (fun _ => 2) (.tup [.scalar 5, .arc 11])).2.2 =
       .tup [.scalar 5, .arc 11] ∧
     (shallow_copy (fun _ => 2) (.tup [.scalar 5, .arc 11])).1 =
       (fun _ => 2)) :=
  ⟨by decide, by decide,
   shallow_copy_tuple_elementwise (fun _ => 2) [.scalar 7, .arc 3] 5 11
     (by decide) (by decide)⟩

/-- C5: for every fixed-size scalar carrier, `shallow_copy` produces a
true independent copy by value: the returned value equals the original's
value and, once stored in its own slot, still reads as that value after
the original's slot is overwritten (modified or destroyed). -/
theorem shallow_copy_scalar_independent (h : Heap) (x : Nat) (st : Store)
    (a b y : Nat) (hab : a ≠ b) :
    (shallow_copy h (.scalar x)).2.2 = .scalar x ∧
    storeWrite (storeWrite st b
      (scalarVal (shallow_copy h (.scalar x)).2.2)) a y b = x := by
  rw [shallow_copy_eq]
  refine ⟨rfl, ?_⟩
  have hba : b ≠ a := fun hba => hab hba.symm
  simp [storeWrite, scalarVal, hba]

/-- Witness for C5 at a concrete scalar, store and slot pair. -/
theorem shallow_copy_scalar_independent_witness :
    (0 : Nat) ≠ 1 ∧
    ((shallow_copy (fun _ => 0) (.scalar 42)).2.2 = .scalar 42 ∧
     storeWrite (storeWrite (fun _ => 0) 1
       (scalarVal (shallow_copy (fun _ => 0) (.scalar 42)).2.2)) 0 7 1 = 42) :=
  ⟨by decide,
   shallow_copy_scalar_independent (fun _ => 0) 42 (fun _ => 0) 0 1 7
     (by decide)⟩

/-- C6: for every borrowed reference carrier, `shallow_copy` returns a
reference to exactly the same address as the original reference, and
this shape carries no destruction obligation. -/
theorem shallow_copy_ref_reborrow (h : Heap) (a : Nat) :
    (shallow_copy h (.ref a)).2.2 = .ref a ∧
    needsDrop (.ref a) = false := by
  rw [shallow_copy_eq]
  exact ⟨rfl, by simp [needsDrop]⟩

/-- C7: for every supported carrier type and every input, `shallow_copy`
always returns normally with a plain value; there is no error case: the
call is fully characterised by a single total equation. -/
theorem shallow_copy_total (h : Heap) (c : Carrier) :
    shallow_copy h c = (h, c, c) ∧
    ∃ out : Heap × Carrier × Carrier, shallow_copy h c = out :=
  ⟨shallow_copy_eq h c, ⟨(h, c, c), shallow_copy_eq h c⟩⟩

/-- C8: for every supported carrier type, calling `shallow_copy` leaves
the original carrier itself unchanged — despite taking mutable access to
the receiver, the receiver after the call is identical to the receiver
before it, and the count heap is likewise untouched. -/
theorem shallow_copy_preserves_original (h : Heap) (c : Carrier) :
    (shallow_copy h c).2.1 = c ∧ (shallow_copy h c).1 = h := by
  rw [shallow_copy_eq]
  exact ⟨rfl, rfl⟩

/-- C9: `shallow_copy` is deterministic: two calls on carriers with equal
representations return results (and leave receivers) with equal
representations, independently of the hidden count heap. -/
theorem shallow_copy_deterministic (h h2 : Heap) (c c2 : Carrier)
    (hc : c = c2) :
    (shallow_copy h c).2.2 = (shallow_copy h2 c2).2.2 ∧
    (shallow_copy h c).2.1 = (shallow_copy h2 c2).2.1 := by
  rw [shallow_copy_eq, shallow_copy_eq, hc]
  exact ⟨rfl, rfl⟩

/-- Witness for C9 at two concrete calls with different heaps. -/
theorem shallow_copy_deterministic_witness :
    (Carrier.arc 5 = Carrier.arc 5) ∧
    ((shallow_copy (fun _ => 0) (.arc 5)).2.2 =
       (shallow_copy (fun _ => 9) (.arc 5)).2.2 ∧
     (shallow_copy (fun _ => 0) (.arc 5)).2.1 =
       (shallow_copy (fun _ => 9) (.arc 5)).2.1) :=
  ⟨rfl, shallow_copy_deterministic (fun _ => 0) (fun _ => 9)
     (.arc 5) (.arc 5) rfl⟩

/-- C10: `shallow_copy` is idempotent with respect to representation:
copying a copy yields a value whose representation equals both the first
copy's and the original's. -/
theorem shallow_copy_idempotent (h h2 : Heap) (c : Carrier) :
    (shallow_copy h2 ((shallow_copy h c).2.2)).2.2 = (shallow_copy h c).2.2 ∧
    (shallow_copy h c).2.2 = c := by
  rw [shallow_copy_eq, shallow_copy_eq]
  exact ⟨rfl, rfl⟩

end LeftRight
